import Mathlib

/-!
Verification of the `autons` touchscreen route selector (`SimpleSelect`).

This file gives a shallow embedding of the selector code in
`src/simple/mod.rs` and `src/simple/route.rs`:

* `SelectorState` mirrors the shared `SelectorState` struct (route table,
  current selection, pending dirty selection).
* `touchIndex` mirrors the touch-to-cell-index computation of the polling
  loop, including the truncating `i16` division and the `as usize` cast on
  the 32-bit target.
* `tick` mirrors one iteration of the polling-loop body in
  `SimpleSelect::new_with_theme`: the touch phase (hover tracking, commit,
  cancel) followed by the dirty-selection reconciliation, together with the
  display calls it issues (`DrawItem` records one `draw_item` call).
* `select`, `newWithTheme`, `runSelected` mirror `SimpleSelect::select`,
  the constructor with its compile-time route-count assertions, and
  `Selector::run`.
* `derivedLabel` mirrors the label derivation of the single-argument arm of
  the `route!` macro in `src/simple/route.rs`.

Fatal failures (assertion panics) are modeled as `Option` results.
-/

namespace Autons

/-- Touch state reported by the display digitizer (the vexide `TouchState`
enum consumed by the polling loop). -/
inductive TouchState where
  | released
  | pressed
  | held
deriving DecidableEq, Repr

/-- One touch sample: digitizer state plus the touch point. The coordinates
are `i16` in the source; they are carried as integers here, with the `i16`
range assumed where a theorem needs it. -/
structure Touch where
  st : TouchState
  x : Int
  y : Int
deriving DecidableEq, Repr

/-- Horizontal resolution of the V5 brain display (the vexide constant
`Display::HORIZONTAL_RESOLUTION`, 480 pixels). -/
def horizontalResolution : Int := 480

/-- Vertical resolution of the V5 brain display (the vexide constant
`Display::VERTICAL_RESOLUTION`, 240 pixels). -/
def verticalResolution : Int := 240

/-- A route entry (`Route` in `src/simple/route.rs`): a display name plus an
opaque identifier standing for the routine function pointer. -/
structure RouteEntry where
  name : String
  cb : Nat
deriving DecidableEq, Repr

instance : Inhabited RouteEntry := ⟨⟨"", 0⟩⟩

/-- The shared selector state (`SelectorState` in `src/simple/mod.rs`). -/
structure SelectorState where
  routes : List RouteEntry
  selection : Nat
  dirtySelection : Option Nat
deriving DecidableEq, Repr

/-- One call to `SimpleSelect::draw_item` as observed by the display: the
label text, the cell index, and the `(selected, active)` flag pair that
chooses the color combination. -/
structure DrawItem where
  label : String
  index : Nat
  selected : Bool
  active : Bool
deriving DecidableEq, Repr

/-- Label drawn for cell `i`. The source indexes `state.routes[i]` directly;
the model uses `getD`, and the in-bounds invariant is proved separately. -/
def routeName (s : SelectorState) (i : Nat) : String :=
  (s.routes.getD i default).name

/-- The touch-to-cell-index computation of the polling loop:
`(6 * (x / (HORIZONTAL_RESOLUTION / 2)) + y / 40) as usize`.
Rust division on `i16` truncates toward zero (`Int.tdiv`), and the
`as usize` cast on the 32-bit target wraps modulo `2 ^ 32`. -/
def touchIndex (t : Touch) : Nat :=
  ((6 * (t.x.tdiv (horizontalResolution / 2)) + t.y.tdiv 40) % (2 ^ 32)).toNat

/-- The filled rectangle of `draw_item` for a given cell index, as origin and
dimensions: `Rect::from_dimensions([if index <= 5 { 0 } else { H / 2 },
(index % 6) * 40], 238, 38)`. -/
def cellRect (index : Nat) : (Int × Int) × Int × Int :=
  ((if index ≤ 5 then 0 else horizontalResolution / 2,
    ((index % 6 : Nat) : Int) * 40), 238, 38)

/-- Result of one polling-loop iteration: the shared state, the loop-local
active-item tracking, and the `draw_item` calls issued, in order. -/
structure TickResult where
  state : SelectorState
  activeItem : Option Nat
  draws : List DrawItem
deriving DecidableEq, Repr

/-- Rust `Option::is_none_or(|prev| prev != touch_index)`. -/
def isNoneOrNe (a : Option Nat) (ti : Nat) : Bool :=
  match a with
  | none => true
  | some prev => prev != ti

/-- The touch-handling phase of one polling-loop iteration (the
`if matches!(touch.state, Held | Pressed) ... else if let Some(...)` block).
It never touches `dirtySelection`. -/
def touchPhase (s : SelectorState) (activeItem : Option Nat) (touch : Touch) :
    TickResult :=
  let n := s.routes.length
  let ti := touchIndex touch
  if touch.st = TouchState.held ∨ touch.st = TouchState.pressed then
    if isNoneOrNe activeItem ti = true ∧ ti < n then
      let oldDraws : List DrawItem :=
        match activeItem with
        | some old => [⟨routeName s old, old, decide (old = s.selection), false⟩]
        | none => []
      ⟨s, some ti, oldDraws ++ [⟨routeName s ti, ti, decide (ti = s.selection), true⟩]⟩
    else
      match activeItem with
      | some old =>
        if old ≠ ti then
          ⟨s, none, [⟨routeName s old, old, decide (old = s.selection), false⟩]⟩
        else ⟨s, activeItem, []⟩
      | none => ⟨s, activeItem, []⟩
  else
    match activeItem with
    | some prev =>
      if ti = prev ∧ ti < n then
        ⟨{ s with selection := prev }, none,
          [⟨routeName s s.selection, s.selection, false, false⟩,
           ⟨routeName s prev, prev, true, false⟩]⟩
      else
        ⟨s, none, [⟨routeName s prev, prev, false, false⟩]⟩
    | none => ⟨s, activeItem, []⟩

/-- The dirty-selection reconciliation phase of one polling-loop iteration
(the `if let Some(dirty_selection) = state.dirty_selection` block): redraw
the dirty index as non-selected, redraw the current selection as selected,
then clear the dirty flag. -/
def dirtyPhase (r : TickResult) : TickResult :=
  match r.state.dirtySelection with
  | some d =>
    ⟨{ r.state with dirtySelection := none }, r.activeItem,
      r.draws ++
        [⟨routeName r.state d, d, false, false⟩,
         ⟨routeName r.state r.state.selection, r.state.selection, true, false⟩]⟩
  | none => r

/-- One full iteration of the polling-loop body in
`SimpleSelect::new_with_theme`: touch handling followed by dirty-selection
reconciliation. -/
def tick (s : SelectorState) (activeItem : Option Nat) (touch : Touch) :
    TickResult :=
  dirtyPhase (touchPhase s activeItem touch)

/-- Folding one touch sample into the (shared state, active item) pair,
discarding the draw calls. -/
def stepTouch (p : SelectorState × Option Nat) (t : Touch) :
    SelectorState × Option Nat :=
  ((tick p.1 p.2 t).state, (tick p.1 p.2 t).activeItem)

/-- Running the polling loop over a finite list of touch samples, one per
tick. -/
def runTicks (p : SelectorState × Option Nat) (ts : List Touch) :
    SelectorState × Option Nat :=
  ts.foldl stepTouch p

/-- `SimpleSelect::select`: `assert!(index < N)` is modeled as a fatal
`none`; otherwise the previous selection is recorded as dirty and the
selection is overwritten. The source performs no display call here, hence
the empty draw list on success. -/
def select (s : SelectorState) (index : Nat) :
    Option (SelectorState × List DrawItem) :=
  if index < s.routes.length then
    some ({ s with dirtySelection := some s.selection, selection := index }, [])
  else none

/-- `SimpleSelect::new_with_theme`: the `const` assertions `N > 0` and
`N <= 12` are modeled as a fatal `none` issued before any drawing. On
success the initial shared state has selection `0` and no dirty index, and
the spawned task first paints every cell, cell `i` drawn selected iff
`i` equals the initial selection `0` (the background and border fills are
not itemized here). -/
def newWithTheme (routes : List RouteEntry) :
    Option (SelectorState × List DrawItem) :=
  if 0 < routes.length ∧ routes.length ≤ 12 then
    some (⟨routes, 0, none⟩,
      (List.range routes.length).map
        (fun i => ⟨(routes.getD i default).name, i, decide (i = 0), false⟩))
  else none

/-- `Selector::run` for `SimpleSelect`: reads the shared state and invokes
`state.routes[state.selection].callback`; the result is the identifier of
the routine handed exclusive access to the robot state. -/
def runSelected (s : SelectorState) : Nat :=
  (s.routes.getD s.selection default).cb

/-- Index of the last occurrence of a character in a list (Rust
`str::rfind(char)`; the route names involved are ASCII, so byte and
character indices coincide). -/
def rfindChar (l : List Char) (c : Char) : Option Nat :=
  match l.reverse.findIdx? (fun a => a = c) with
  | some k => some (l.length - 1 - k)
  | none => none

/-- The label derivation of the single-argument arm of the `route!` macro
(`src/simple/route.rs`): given the string returned by
`core::any::type_name_of_val` for the routine, drop its final three
characters, then take the text after the last colon of the truncated name,
or the whole truncated name when it contains no colon. -/
def derivedLabel (typeName : String) : String :=
  let cs := typeName.data
  let t := cs.take (cs.length - 3)
  match rfindChar t (Char.ofNat 58) with
  | some pos => String.mk ((cs.take (cs.length - 3)).drop (pos + 1))
  | none => String.mk t

/-- The selector-state invariant: the current selection, any tracked active
item, and any pending dirty index are all valid route indices. -/
def Inv (s : SelectorState) (a : Option Nat) : Prop :=
  s.selection < s.routes.length ∧
  (∀ j ∈ a, j < s.routes.length) ∧
  (∀ d ∈ s.dirtySelection, d < s.routes.length)

instance (s : SelectorState) (a : Option Nat) : Decidable (Inv s a) := by
  unfold Inv
  infer_instance

/-- Sample route table used by witness theorems. -/
def routesW : List RouteEntry := [⟨"Route 1", 0⟩, ⟨"Route 2", 1⟩]

/-- Sample selector state used by witness theorems. -/
def stateW : SelectorState := ⟨routesW, 0, none⟩

/-- Sample press touch at a point mapping to cell index 1. -/
def pressW : Touch := ⟨TouchState.pressed, 10, 50⟩

/-- Sample held touch at a point mapping to cell index 1. -/
def heldW : Touch := ⟨TouchState.held, 15, 45⟩

/-- Sample release touch at a point mapping to cell index 1. -/
def relW : Touch := ⟨TouchState.released, 20, 41⟩

/-- Second sample held touch, lower on the screen than pressW. -/
def heldLowW : Touch := ⟨TouchState.held, 10, 90⟩

theorem dirtyPhase_routes (r : TickResult) :
    (dirtyPhase r).state.routes = r.state.routes := by
  unfold dirtyPhase
  split <;> rfl

theorem dirtyPhase_selection (r : TickResult) :
    (dirtyPhase r).state.selection = r.state.selection := by
  unfold dirtyPhase
  split <;> rfl

theorem dirtyPhase_activeItem (r : TickResult) :
    (dirtyPhase r).activeItem = r.activeItem := by
  unfold dirtyPhase
  split <;> rfl

theorem dirtyPhase_dirty_none (r : TickResult) :
    (dirtyPhase r).state.dirtySelection = none := by
  unfold dirtyPhase
  split
  · rfl
  · assumption

theorem touchPhase_routes (s : SelectorState) (a : Option Nat) (t : Touch) :
    (touchPhase s a t).state.routes = s.routes := by
  unfold touchPhase
  dsimp only
  repeat' split
  all_goals rfl

theorem touchPhase_dirty (s : SelectorState) (a : Option Nat) (t : Touch) :
    (touchPhase s a t).state.dirtySelection = s.dirtySelection := by
  unfold touchPhase
  dsimp only
  repeat' split
  all_goals rfl

theorem tick_routes (s : SelectorState) (a : Option Nat) (t : Touch) :
    (tick s a t).state.routes = s.routes := by
  unfold tick
  rw [dirtyPhase_routes, touchPhase_routes]

theorem tick_dirty_none (s : SelectorState) (a : Option Nat) (t : Touch) :
    (tick s a t).state.dirtySelection = none :=
  dirtyPhase_dirty_none _

theorem eraseDirty_eq (s : SelectorState) (h : s.dirtySelection = none) :
    ({ s with dirtySelection := none } : SelectorState) = s := by
  cases s
  simp_all

theorem dirtyPhase_state (r : TickResult) :
    (dirtyPhase r).state = { r.state with dirtySelection := none } := by
  unfold dirtyPhase
  split
  · rfl
  · rename_i h
    exact (eraseDirty_eq _ h).symm

theorem stepTouch_eq (p : SelectorState × Option Nat) (t : Touch) :
    stepTouch p t =
      ({ (touchPhase p.1 p.2 t).state with dirtySelection := none },
       (touchPhase p.1 p.2 t).activeItem) := by
  unfold stepTouch tick
  rw [dirtyPhase_state, dirtyPhase_activeItem]

theorem touchPhase_down_new (s : SelectorState) (t : Touch)
    (hp : t.st = TouchState.held ∨ t.st = TouchState.pressed)
    (hiN : touchIndex t < s.routes.length) :
    touchPhase s none t =
      ⟨s, some (touchIndex t),
        [⟨routeName s (touchIndex t), touchIndex t,
          decide (touchIndex t = s.selection), true⟩]⟩ := by
  unfold touchPhase
  dsimp only
  rw [if_pos hp, if_pos ⟨rfl, hiN⟩]
  rfl

theorem touchPhase_held_same (s : SelectorState) (t : Touch) (i : Nat)
    (hp : t.st = TouchState.held ∨ t.st = TouchState.pressed)
    (hti : touchIndex t = i) :
    touchPhase s (some i) t = ⟨s, some i, []⟩ := by
  unfold touchPhase
  dsimp only
  rw [if_pos hp]
  simp [isNoneOrNe, hti]

theorem touchPhase_release_commit (s : SelectorState) (t : Touch) (i : Nat)
    (hr : t.st = TouchState.released) (hti : touchIndex t = i)
    (hiN : i < s.routes.length) :
    touchPhase s (some i) t =
      ⟨{ s with selection := i }, none,
        [⟨routeName s s.selection, s.selection, false, false⟩,
         ⟨routeName s i, i, true, false⟩]⟩ := by
  unfold touchPhase
  dsimp only
  rw [if_neg (by simp [hr])]
  simp [hti, hiN]

theorem touchPhase_release_cancel (s : SelectorState) (t : Touch) (i : Nat)
    (hr : t.st = TouchState.released) (hti : touchIndex t ≠ i) :
    touchPhase s (some i) t = ⟨s, none, [⟨routeName s i, i, false, false⟩]⟩ := by
  unfold touchPhase
  dsimp only
  rw [if_neg (by simp [hr])]
  simp [hti]

theorem stepTouch_press (s : SelectorState) (t : Touch)
    (hp : t.st = TouchState.pressed)
    (hiN : touchIndex t < s.routes.length) :
    stepTouch (s, none) t =
      ({ s with dirtySelection := none }, some (touchIndex t)) := by
  rw [stepTouch_eq, touchPhase_down_new s t (Or.inr hp) hiN]

theorem stepTouch_held (s : SelectorState) (t : Touch) (i : Nat)
    (hp : t.st = TouchState.held) (hti : touchIndex t = i)
    (hd : s.dirtySelection = none) :
    stepTouch (s, some i) t = (s, some i) := by
  rw [stepTouch_eq, touchPhase_held_same s t i (Or.inl hp) hti]
  dsimp only
  rw [eraseDirty_eq s hd]

theorem stepTouch_commit (s : SelectorState) (t : Touch) (i : Nat)
    (hr : t.st = TouchState.released) (hti : touchIndex t = i)
    (hiN : i < s.routes.length) :
    stepTouch (s, some i) t =
      ({ s with selection := i, dirtySelection := none }, none) := by
  rw [stepTouch_eq, touchPhase_release_commit s t i hr hti hiN]

theorem stepTouch_cancel (s : SelectorState) (t : Touch) (i : Nat)
    (hr : t.st = TouchState.released) (hti : touchIndex t ≠ i)
    (hd : s.dirtySelection = none) :
    stepTouch (s, some i) t = (s, none) := by
  rw [stepTouch_eq, touchPhase_release_cancel s t i hr hti]
  dsimp only
  rw [eraseDirty_eq s hd]

theorem runTicks_cons (p : SelectorState × Option Nat) (t : Touch)
    (ts : List Touch) : runTicks p (t :: ts) = runTicks (stepTouch p t) ts := rfl

theorem runTicks_append (p : SelectorState × Option Nat) (l1 l2 : List Touch) :
    runTicks p (l1 ++ l2) = runTicks (runTicks p l1) l2 := by
  unfold runTicks
  rw [List.foldl_append]

theorem runTicks_single (p : SelectorState × Option Nat) (t : Touch) :
    runTicks p [t] = stepTouch p t := rfl

theorem runTicks_helds (s : SelectorState) (i : Nat) (helds : List Touch)
    (hh : ∀ t ∈ helds, t.st = TouchState.held ∧ touchIndex t = i)
    (hd : s.dirtySelection = none) :
    runTicks (s, some i) helds = (s, some i) := by
  induction helds with
  | nil => rfl
  | cons t ts ih =>
    rw [runTicks_cons,
      stepTouch_held s t i (hh t (by simp)).1 (hh t (by simp)).2 hd]
    exact ih (fun u hu => hh u (by simp [hu]))

/-- Claim C1: a polling-tick sequence consisting of a press landing on an
in-range cell index, any number of held ticks on that same cell (no drag to
a different cell), and a release, updates `selection` to that index exactly
when the release maps to the origin cell: the selection becomes that index
at the release tick and is untouched at every earlier tick; a release
mapping to any other index (a different cell or an out-of-range position)
leaves `selection` unchanged for the whole sequence. -/
theorem commit_updates_selection_exactly_once
    (s : SelectorState) (press rel : Touch) (helds : List Touch) (i : Nat)
    (hp : press.st = TouchState.pressed)
    (hpi : touchIndex press = i)
    (hiN : i < s.routes.length)
    (hh : ∀ t ∈ helds, t.st = TouchState.held ∧ touchIndex t = i)
    (hr : rel.st = TouchState.released) :
    ((touchIndex rel = i →
        (runTicks (s, none) (press :: (helds ++ [rel]))).1.selection = i) ∧
     (touchIndex rel ≠ i →
        (runTicks (s, none) (press :: (helds ++ [rel]))).1.selection
          = s.selection)) ∧
    (∀ k, (runTicks (s, none) ((press :: helds).take k)).1.selection
        = s.selection) := by
  have hpiN : touchIndex press < s.routes.length := by rw [hpi]; exact hiN
  have h0 : stepTouch (s, none) press
      = ({ s with dirtySelection := none }, some i) := by
    rw [stepTouch_press s press hp hpiN, hpi]
  have hHelds : runTicks ({ s with dirtySelection := none }, some i) helds
      = ({ s with dirtySelection := none }, some i) :=
    runTicks_helds _ _ _ hh rfl
  refine ⟨⟨fun hri => ?_, fun hri => ?_⟩, fun k => ?_⟩
  · rw [runTicks_cons, h0, runTicks_append, hHelds, runTicks_single,
      stepTouch_commit { s with dirtySelection := none } rel i hr hri hiN]
  · rw [runTicks_cons, h0, runTicks_append, hHelds, runTicks_single,
      stepTouch_cancel { s with dirtySelection := none } rel i hr hri rfl]
  · cases k with
    | zero => rfl
    | succ k =>
      rw [List.take_succ_cons, runTicks_cons, h0,
        runTicks_helds _ _ _ (fun u hu => hh u (List.take_subset _ _ hu)) rfl]

/-- Witness for claim C1 at a concrete two-route state and a concrete
press, hold, release sequence on cell 1. -/
theorem commit_updates_selection_exactly_once_witness :
    ((touchIndex relW = 1 →
        (runTicks (stateW, none) (pressW :: ([heldW] ++ [relW]))).1.selection
          = 1) ∧
     (touchIndex relW ≠ 1 →
        (runTicks (stateW, none) (pressW :: ([heldW] ++ [relW]))).1.selection
          = stateW.selection)) ∧
    (∀ k, (runTicks (stateW, none) ((pressW :: [heldW]).take k)).1.selection
        = stateW.selection) :=
  commit_updates_selection_exactly_once stateW pressW relW [heldW] 1
    rfl (by decide) (by decide) (by decide) rfl

/-- Claim C2: `select i` fails fatally exactly when `i` is out of bounds;
for `i < N` it succeeds, leaving `selection = i`, `dirtySelection` holding
the immediately preceding selection, and performing no display operation
(an empty draw list). -/
theorem select_contract (s : SelectorState) (i : Nat) :
    (s.routes.length ≤ i → select s i = none) ∧
    (i < s.routes.length →
      select s i =
        some ({ routes := s.routes, selection := i,
                dirtySelection := some s.selection }, [])) := by
  constructor
  · intro h
    unfold select
    rw [if_neg (by omega)]
  · intro h
    unfold select
    rw [if_pos h]

/-- Witness for claim C2: on the sample two-route state, `select 1` succeeds
with the specified state and no draws, and `select 5` fails. -/
theorem select_contract_witness :
    select stateW 1 =
      some ({ routes := stateW.routes, selection := 1,
              dirtySelection := some stateW.selection }, []) ∧
    select stateW 5 = none :=
  ⟨(select_contract stateW 1).2 (by decide),
   (select_contract stateW 5).1 (by decide)⟩

/-- Claim C4: construction succeeds exactly when the route count `n`
satisfies `1 ≤ n ≤ 12`; a route count of zero or above twelve fails fatally
before any display operation (the failing branch produces no draw list). -/
theorem construction_bounds (routes : List RouteEntry) :
    (newWithTheme routes).isSome ↔
      1 ≤ routes.length ∧ routes.length ≤ 12 := by
  unfold newWithTheme
  split
  · rename_i h
    simp only [Option.isSome_some, true_iff]
    exact h
  · rename_i h
    simp only [Option.isSome_none, Bool.false_eq_true, false_iff]
    exact h

/-- Witness for claim C4 at the sample two-route table. -/
theorem construction_bounds_witness :
    (newWithTheme routesW).isSome ↔
      1 ≤ routesW.length ∧ routesW.length ≤ 12 :=
  construction_bounds routesW

/-- Claim C7: evaluation of the label derivation at the qualified name of
the example routine. `core::any::type_name_of_val` applied to the function
item `Robot::route_1` yields its fully qualified path; the macro drops the
final three characters of that path before splitting at the last colon, so
the derived label is `rout`, not the last path segment `route_1`. -/
theorem derived_label_truncates (qualifiedName : String)
    (h : qualifiedName = "autons_example::Robot::route_1") :
    derivedLabel qualifiedName = "rout" ∧
    derivedLabel qualifiedName ≠ "route_1" := by
  rw [h]
  exact ⟨by decide, by decide⟩

/-- Witness for claim C7 at the concrete qualified name. -/
theorem derived_label_truncates_witness :
    derivedLabel "autons_example::Robot::route_1" = "rout" ∧
    derivedLabel "autons_example::Robot::route_1" ≠ "route_1" :=
  derived_label_truncates "autons_example::Robot::route_1" rfl

/-- Claim C8 counterexample: at cell index 0 the filled rectangle measures
238 by 38 pixels, which is not half the horizontal resolution (240) paired
with half the vertical resolution (120) as the claim requires. -/
theorem cell_dimensions_not_resolution_halves :
    ¬((cellRect 0).2.1 = horizontalResolution / 2 ∧
      (cellRect 0).2.2 = verticalResolution / 2) := by decide

/-- Claim C8 (amended): for every cell index `i < 12`, the cell is drawn at
column `i / 6` and row `i % 6` of the 2 by 6 grid, at pixel origin
`(240 * (i / 6), 40 * (i % 6))`; the filled rectangle has fixed width 238
and height 38 — the 240 by 40 cell pitch inset by two pixels, not the
display's resolution halves. -/
theorem cell_geometry (i : Nat) (h : i < 12) :
    (cellRect i).1
      = (240 * ((i / 6 : Nat) : Int), 40 * ((i % 6 : Nat) : Int)) ∧
    (cellRect i).2 = (238, 38) := by
  interval_cases i <;> exact ⟨by decide, by decide⟩

/-- Witness for the amended claim C8 at cell index 7 (second column). -/
theorem cell_geometry_witness :
    (cellRect 7).1
      = (240 * ((7 / 6 : Nat) : Int), 40 * ((7 % 6 : Nat) : Int)) ∧
    (cellRect 7).2 = (238, 38) :=
  cell_geometry 7 (by decide)

theorem routeName_eq_of_routes (s1 s2 : SelectorState)
    (h : s1.routes = s2.routes) (j : Nat) : routeName s1 j = routeName s2 j := by
  unfold routeName
  rw [h]

theorem dirtyPhase_draws_some (r : TickResult) (d : Nat)
    (h : r.state.dirtySelection = some d) :
    (dirtyPhase r).draws = r.draws ++
      [⟨routeName r.state d, d, false, false⟩,
       ⟨routeName r.state r.state.selection, r.state.selection,
        true, false⟩] := by
  unfold dirtyPhase
  split
  · rename_i d2 h2
    rw [h2] at h
    simp only [Option.some.injEq] at h
    rw [h]
  · rename_i h2
    rw [h2] at h
    exact Option.noConfusion h

theorem dirtyPhase_draws_mem (r : TickResult) (dc : DrawItem)
    (h : dc ∈ (dirtyPhase r).draws) :
    dc ∈ r.draws ∨ (∃ d, r.state.dirtySelection = some d ∧ dc.index = d) ∨
    dc.index = r.state.selection := by
  unfold dirtyPhase at h
  split at h
  · rename_i d hd
    simp only [List.mem_append, List.mem_cons, List.mem_singleton,
      List.not_mem_nil, or_false] at h
    rcases h with h | h | h
    · left; exact h
    · right; left; exact ⟨d, hd, by rw [h]⟩
    · right; right; rw [h]
  · left; exact h

/-- Claim C9: the route table is read-only after construction — a polling
tick and a successful `select` both leave `routes` (every name, callback
and their order) unchanged, mutating only `selection` and `dirtySelection`,
and `run` reads the callback at the current selection without touching the
state. -/
theorem route_table_readonly (s : SelectorState) (a : Option Nat) (t : Touch)
    (i : Nat) :
    (tick s a t).state.routes = s.routes ∧
    (∀ p, select s i = some p → p.1.routes = s.routes) ∧
    runSelected s = (s.routes.getD s.selection default).cb := by
  refine ⟨tick_routes s a t, ?_, rfl⟩
  intro p hp
  unfold select at hp
  split at hp
  · simp only [Option.some.injEq] at hp
    rw [← hp]
  · exact Option.noConfusion hp

/-- Witness for claim C9 on the sample state, a concrete tick and a
successful select call. -/
theorem route_table_readonly_witness :
    (tick stateW (some 1) relW).state.routes = stateW.routes ∧
    (∀ p, select stateW 1 = some p → p.1.routes = stateW.routes) ∧
    runSelected stateW = (stateW.routes.getD stateW.selection default).cb :=
  route_table_readonly stateW (some 1) relW 1

/-- Claim C10: `dirtySelection` is set only by `select` (to the previous
selection); a touch commit never sets it; and every tick clears it — after
any tick `dirtySelection` is `none`, and a tick that starts with
`dirtySelection = some d` first issues the two reconciliation redraws
(`d` as non-selected, then the tick's final selection as selected) at the
end of its draw list. -/
theorem dirty_selection_discipline (s : SelectorState) (a : Option Nat)
    (t : Touch) (i d : Nat) :
    (tick s a t).state.dirtySelection = none ∧
    (s.dirtySelection = some d →
      ∃ pre, (tick s a t).draws = pre ++
        [⟨routeName s d, d, false, false⟩,
         ⟨routeName s (tick s a t).state.selection,
          (tick s a t).state.selection, true, false⟩]) ∧
    (∀ p, select s i = some p → p.1.dirtySelection = some s.selection) := by
  refine ⟨tick_dirty_none s a t, fun hd => ?_, fun p hp => ?_⟩
  · refine ⟨(touchPhase s a t).draws, ?_⟩
    unfold tick
    rw [dirtyPhase_draws_some (touchPhase s a t) d
        (by rw [touchPhase_dirty]; exact hd),
      dirtyPhase_selection,
      routeName_eq_of_routes (touchPhase s a t).state s
        (touchPhase_routes s a t) d,
      routeName_eq_of_routes (touchPhase s a t).state s
        (touchPhase_routes s a t) (touchPhase s a t).state.selection]
  · unfold select at hp
    split at hp
    · simp only [Option.some.injEq] at hp
      rw [← hp]
    · exact Option.noConfusion hp

/-- Witness for claim C10 on the sample state with a pending dirty index. -/
theorem dirty_selection_discipline_witness :
    (tick ⟨routesW, 1, some 0⟩ none heldW).state.dirtySelection = none ∧
    ((⟨routesW, 1, some 0⟩ : SelectorState).dirtySelection = some 0 →
      ∃ pre, (tick ⟨routesW, 1, some 0⟩ none heldW).draws = pre ++
        [⟨routeName ⟨routesW, 1, some 0⟩ 0, 0, false, false⟩,
         ⟨routeName ⟨routesW, 1, some 0⟩
            (tick ⟨routesW, 1, some 0⟩ none heldW).state.selection,
          (tick ⟨routesW, 1, some 0⟩ none heldW).state.selection,
          true, false⟩]) ∧
    (∀ p, select ⟨routesW, 1, some 0⟩ 0 = some p →
      p.1.dirtySelection
        = some (⟨routesW, 1, some 0⟩ : SelectorState).selection) :=
  dirty_selection_discipline ⟨routesW, 1, some 0⟩ none heldW 0 0

theorem touchPhase_selection_cases (s : SelectorState) (a : Option Nat)
    (t : Touch) :
    (touchPhase s a t).state.selection = s.selection ∨
    ((touchPhase s a t).state.selection = touchIndex t ∧
     touchIndex t < s.routes.length) := by
  unfold touchPhase
  dsimp only
  repeat' split
  all_goals simp_all
  all_goals omega

theorem touchPhase_active_cases (s : SelectorState) (a : Option Nat)
    (t : Touch) :
    (touchPhase s a t).activeItem = none ∨
    (touchPhase s a t).activeItem = a ∨
    ((touchPhase s a t).activeItem = some (touchIndex t) ∧
     touchIndex t < s.routes.length) := by
  unfold touchPhase
  dsimp only
  repeat' split
  all_goals simp_all

theorem touchPhase_draws_lt (s : SelectorState) (a : Option Nat) (t : Touch)
    (h : Inv s a) :
    ∀ dc ∈ (touchPhase s a t).draws, dc.index < s.routes.length := by
  obtain ⟨h1, h2, h3⟩ := h
  unfold touchPhase
  dsimp only
  repeat' split
  all_goals intro dc hdc
  all_goals simp_all
  all_goals (rcases hdc with rfl | rfl) <;> simp_all

/-- Claim C3: the invariant `selection < N` holds after construction (where
`selection` starts at 0) and is preserved by every polling tick under any
touch input and by every successful `select`; together with the bounds on
the tracked active item and pending dirty index, every route-array access —
each index drawn during a tick and the index read by `run` — stays in
bounds. -/
theorem selection_always_valid
    (rs : List RouteEntry) (s : SelectorState) (a : Option Nat) (t : Touch)
    (i : Nat) (h : Inv s a) :
    (∀ p, newWithTheme rs = some p → p.1.selection = 0 ∧ Inv p.1 none) ∧
    Inv (tick s a t).state (tick s a t).activeItem ∧
    (∀ dc ∈ (tick s a t).draws, dc.index < s.routes.length) ∧
    (∀ p, select s i = some p → Inv p.1 a) ∧
    s.selection < s.routes.length := by
  obtain ⟨h1, h2, h3⟩ := h
  refine ⟨?_, ⟨?_, ?_, ?_⟩, ?_, ?_, h1⟩
  · intro p hp
    unfold newWithTheme at hp
    split at hp
    · rename_i hcond
      simp only [Option.some.injEq] at hp
      rw [← hp]
      exact ⟨rfl, hcond.1, by simp, by simp⟩
    · exact Option.noConfusion hp
  · rw [show (tick s a t).state.selection
        = (touchPhase s a t).state.selection from dirtyPhase_selection _,
      tick_routes]
    rcases touchPhase_selection_cases s a t with hc | ⟨hc, hn⟩
    · rw [hc]; exact h1
    · rw [hc]; exact hn
  · rw [show (tick s a t).activeItem
        = (touchPhase s a t).activeItem from dirtyPhase_activeItem _]
    intro j hj
    rw [tick_routes]
    rcases touchPhase_active_cases s a t with hc | hc | ⟨hc, hn⟩
    · rw [hc] at hj; exact absurd hj (by simp)
    · rw [hc] at hj; exact h2 j hj
    · rw [hc] at hj
      simp only [Option.mem_def, Option.some.injEq] at hj
      omega
  · intro d2 hd2
    rw [tick_dirty_none] at hd2
    exact Option.noConfusion hd2
  · intro dc hdc
    rcases dirtyPhase_draws_mem (touchPhase s a t) dc hdc
      with hc | ⟨d, hd, he⟩ | he
    · exact touchPhase_draws_lt s a t ⟨h1, h2, h3⟩ dc hc
    · rw [touchPhase_dirty] at hd
      rw [he]
      exact h3 d hd
    · rw [he]
      rcases touchPhase_selection_cases s a t with hc | ⟨hc, hn⟩
      · rw [hc]; exact h1
      · rw [hc]; exact hn
  · intro p hp
    unfold select at hp
    split at hp
    · rename_i hlt
      simp only [Option.some.injEq] at hp
      rw [← hp]
      refine ⟨hlt, h2, ?_⟩
      intro d hd
      simp only [Option.mem_def, Option.some.injEq] at hd
      show d < s.routes.length
      omega
    · exact Option.noConfusion hp

/-- Witness for claim C3 at a concrete state satisfying the invariant, a
concrete touch, select index and construction input. -/
theorem selection_always_valid_witness :
    Inv stateW (some 1) ∧
    ((∀ p, newWithTheme routesW = some p →
        p.1.selection = 0 ∧ Inv p.1 none) ∧
     Inv (tick stateW (some 1) relW).state
       (tick stateW (some 1) relW).activeItem ∧
     (∀ dc ∈ (tick stateW (some 1) relW).draws,
        dc.index < stateW.routes.length) ∧
     (∀ p, select stateW 1 = some p → Inv p.1 (some 1)) ∧
     stateW.selection < stateW.routes.length) :=
  ⟨by decide,
   selection_always_valid routesW stateW (some 1) relW 1 (by decide)⟩

/-- Claim C5: for on-screen touch points, the computed cell index equals
`6 * (x / (horizontal resolution / 2)) + y / 40` (the `as usize` cast does
not wrap); the mapping is a function of the touch point alone (the touch
state is irrelevant); for a fixed horizontal coordinate it is monotonically
nondecreasing in the vertical position; and a computed index at or beyond
the route count leaves the selection unchanged by the tick — out of range
is a handled case, not an error. -/
theorem touch_index_mapping
    (t u : Touch) (s : SelectorState) (a : Option Nat)
    (hx : u.x = t.x) (hx0 : 0 ≤ t.x) (hxw : t.x < horizontalResolution)
    (hy0 : 0 ≤ t.y) (hyy : t.y ≤ u.y) (hyh : u.y < verticalResolution) :
    ((touchIndex t : Int)
        = 6 * (t.x.tdiv (horizontalResolution / 2)) + t.y.tdiv 40) ∧
    (t.y = u.y → touchIndex t = touchIndex u) ∧
    touchIndex t ≤ touchIndex u ∧
    (s.routes.length ≤ touchIndex t →
      (tick s a t).state.selection = s.selection) := by
  have hhr : (horizontalResolution / 2 : Int) = 240 := by decide
  have hXe : t.x.tdiv (horizontalResolution / 2) = t.x / 240 := by
    rw [hhr]
    exact Int.tdiv_eq_ediv hx0 (by decide)
  have hX0 : 0 ≤ t.x / 240 := Int.ediv_nonneg hx0 (by decide)
  have hx479 : t.x ≤ 479 := by
    have := hxw
    unfold horizontalResolution at this
    omega
  have hX1 : t.x / 240 ≤ 1 := by
    have h479 : t.x / 240 ≤ 479 / 240 := Int.ediv_le_ediv (by decide) hx479
    have hv : (479 : Int) / 240 = 1 := by decide
    rw [hv] at h479
    exact h479
  have hy0u : 0 ≤ u.y := le_trans hy0 hyy
  have hYet : t.y.tdiv 40 = t.y / 40 := Int.tdiv_eq_ediv hy0 (by decide)
  have hYeu : u.y.tdiv 40 = u.y / 40 := Int.tdiv_eq_ediv hy0u (by decide)
  have hY0t : 0 ≤ t.y / 40 := Int.ediv_nonneg hy0 (by decide)
  have hY0u : 0 ≤ u.y / 40 := Int.ediv_nonneg hy0u (by decide)
  have hu239 : u.y ≤ 239 := by
    have := hyh
    unfold verticalResolution at this
    omega
  have hY5u : u.y / 40 ≤ 5 := by
    have h239 : u.y / 40 ≤ 239 / 40 := Int.ediv_le_ediv (by decide) hu239
    have hv : (239 : Int) / 40 = 5 := by decide
    rw [hv] at h239
    exact h239
  have hYmono : t.y / 40 ≤ u.y / 40 := Int.ediv_le_ediv (by decide) hyy
  have hY5t : t.y / 40 ≤ 5 := le_trans hYmono hY5u
  have hzt0 : 0 ≤ 6 * (t.x.tdiv (horizontalResolution / 2)) + t.y.tdiv 40 := by
    rw [hXe, hYet]
    omega
  have hztlt :
      6 * (t.x.tdiv (horizontalResolution / 2)) + t.y.tdiv 40 < 2 ^ 32 := by
    rw [hXe, hYet]
    have hp : (2 : Int) ^ 32 = 4294967296 := by norm_num
    rw [hp]
    omega
  have hzu0 : 0 ≤ 6 * (u.x.tdiv (horizontalResolution / 2)) + u.y.tdiv 40 := by
    rw [hx, hXe, hYeu]
    omega
  have hzult :
      6 * (u.x.tdiv (horizontalResolution / 2)) + u.y.tdiv 40 < 2 ^ 32 := by
    rw [hx, hXe, hYeu]
    have hp : (2 : Int) ^ 32 = 4294967296 := by norm_num
    rw [hp]
    omega
  refine ⟨?_, ?_, ?_, ?_⟩
  · unfold touchIndex
    rw [Int.emod_eq_of_lt hzt0 hztlt, Int.toNat_of_nonneg hzt0]
  · intro hy
    unfold touchIndex
    rw [hx, hy]
  · unfold touchIndex
    rw [Int.emod_eq_of_lt hzt0 hztlt, Int.emod_eq_of_lt hzu0 hzult]
    refine Int.toNat_le_toNat ?_
    rw [hx, hXe, hYet, hYeu]
    omega
  · intro hn
    rw [show (tick s a t).state.selection
        = (touchPhase s a t).state.selection from dirtyPhase_selection _]
    rcases touchPhase_selection_cases s a t with hc | ⟨hc, hlt⟩
    · exact hc
    · omega

/-- Witness for claim C5 at two concrete on-screen touch points in the left
half of the display. -/
theorem touch_index_mapping_witness :
    ((touchIndex pressW : Int)
        = 6 * (pressW.x.tdiv (horizontalResolution / 2))
            + pressW.y.tdiv 40) ∧
    (pressW.y = heldLowW.y →
      touchIndex pressW = touchIndex heldLowW) ∧
    touchIndex pressW ≤ touchIndex heldLowW ∧
    (stateW.routes.length ≤ touchIndex pressW →
      (tick stateW none pressW).state.selection = stateW.selection) :=
  touch_index_mapping pressW heldLowW stateW none
    (by decide) (by decide) (by decide) (by decide) (by decide) (by decide)

end Autons
